import Mathlib

/-
Verification development for the gakkenberry repository: shallow embedding of
the azimuthal-equidistant and gnomonic projection math, the coordinate-grid
memoization, the color map, and the eyeball animation state machines, together
with theorems settling the frozen claims about them.
-/

open Real

/-- Truncation toward zero, the semantics of the Python builtin int() applied
to a float (and of numpy astype on nonnegative values). -/
noncomputable def pytrunc (r : ℝ) : ℤ := if 0 ≤ r then ⌊r⌋ else ⌈r⌉

/-- Round half to even, the semantics of the Python builtin round() on a float. -/
noncomputable def pyround (x : ℝ) : ℤ :=
  if Int.fract x < 1 / 2 then ⌊x⌋
  else if 1 / 2 < Int.fract x then ⌊x⌋ + 1
  else if Even ⌊x⌋ then ⌊x⌋ else ⌊x⌋ + 1

/-- Two-argument arctangent, the semantics of math.atan2 / np.arctan2:
the angle of the point (x, y) in the plane, in the interval (-pi, pi]. -/
noncomputable def atan2 (y x : ℝ) : ℝ := Complex.arg ⟨x, y⟩

namespace projection_utils

/-- Screen height from projection_utils.py. -/
noncomputable def H : ℝ := 480

/-- Screen width from projection_utils.py. -/
noncomputable def W : ℝ := 640

/-- Horizontal calibration factor from projection_utils.py. -/
noncomputable def SCALE_X : ℝ := 0.80

/-- Vertical calibration factor from projection_utils.py. -/
noncomputable def SCALE_Y : ℝ := 0.78

/-- max_screen_radius local of azimuthal_equidistant_projection:
min(W, H) / 2 * 0.9. -/
noncomputable def max_screen_radius : ℝ := min W H / 2 * 0.9

/-- great_circle_angle local of azimuthal_equidistant_projection:
math.acos(max(-1, min(1, x))). -/
noncomputable def great_circle_angle (x : ℝ) : ℝ := Real.arccos (max (-1) (min 1 x))

/-- The horizontal screen offset from the centre computed inside
azimuthal_equidistant_projection: screen_radius * cos(azimuth) / SCALE_X,
where screen_radius = (great_circle_angle / (pi/2)) * max_screen_radius
and azimuth = atan2(z, y). -/
noncomputable def off_x (x y z : ℝ) : ℝ :=
  great_circle_angle x / (Real.pi / 2) * max_screen_radius * Real.cos (atan2 z y) / SCALE_X

/-- The vertical screen offset (before the y flip) computed inside
azimuthal_equidistant_projection: screen_radius * sin(azimuth) / SCALE_Y. -/
noncomputable def off_y (x y z : ℝ) : ℝ :=
  great_circle_angle x / (Real.pi / 2) * max_screen_radius * Real.sin (atan2 z y) / SCALE_Y

/-- projection_utils.azimuthal_equidistant_projection: maps a 3D cartesian
direction to an optional pair of integer screen coordinates. Returns none for
points behind the hemisphere (x <= 0), for great-circle angles beyond pi/2,
and for results outside the 640x480 screen bounds. -/
noncomputable def azimuthal_equidistant_projection (x y z : ℝ) : Option (ℤ × ℤ) :=
  if x ≤ 0 then none
  else if Real.pi / 2 < great_circle_angle x then none
  else
    let screen_x := pytrunc (W / 2 + off_x x y z)
    let screen_y := pytrunc (H / 2 - off_y x y z)
    if 0 ≤ screen_x ∧ screen_x < 640 ∧ 0 ≤ screen_y ∧ screen_y < 480 then
      some (screen_x, screen_y)
    else none

end projection_utils

namespace eyeball_core

/-- norm_x array of get_coordinate_grids_cached in toys/eyeball_core.py at
pixel column j of a W_res-wide grid: (j * 640 / W_res - 320) / 320. -/
noncomputable def norm_x (Wres j : ℕ) : ℝ := ((j : ℝ) * 640 / (Wres : ℝ) - 320) / 320

/-- norm_y array of get_coordinate_grids_cached at pixel row i of an
H_res-tall grid: (i * 480 / H_res - 240) / 240. -/
noncomputable def norm_y (Hres i : ℕ) : ℝ := ((i : ℝ) * 480 / (Hres : ℝ) - 240) / 240

/-- radius array of get_coordinate_grids_cached: sqrt(norm_x^2 + norm_y^2). -/
noncomputable def radius (Hres Wres i j : ℕ) : ℝ :=
  Real.sqrt (norm_x Wres j ^ 2 + norm_y Hres i ^ 2)

/-- great_circle_angle array of get_coordinate_grids_cached:
radius * (pi/2) / 0.9. -/
noncomputable def great_circle_angle (Hres Wres i j : ℕ) : ℝ :=
  radius Hres Wres i j * (Real.pi / 2) / 0.9

/-- azimuth array of get_coordinate_grids_cached: arctan2(norm_y, norm_x). -/
noncomputable def azimuth (Hres Wres i j : ℕ) : ℝ :=
  atan2 (norm_y Hres i) (norm_x Wres j)

/-- valid_mask array of get_coordinate_grids_cached:
(radius <= 0.9) and (great_circle_angle <= pi/2). -/
def valid_mask (Hres Wres i j : ℕ) : Prop :=
  radius Hres Wres i j ≤ 0.9 ∧ great_circle_angle Hres Wres i j ≤ Real.pi / 2

/-- The value stored in the _coord_cache dictionary of toys/eyeball_core.py:
the six per-pixel coordinate arrays, as functions of the pixel (i, j). -/
structure CoordGrids where
  great_circle_angle : ℕ → ℕ → ℝ
  azimuth : ℕ → ℕ → ℝ
  valid_mask : ℕ → ℕ → Prop
  radius : ℕ → ℕ → ℝ
  norm_x : ℕ → ℕ → ℝ
  norm_y : ℕ → ℕ → ℝ

/-- The uncached grid computation of get_coordinate_grids_cached for a cache
key (H_res, W_res): the body of the `if cache_key not in _coord_cache` branch. -/
noncomputable def compute_grids (key : ℕ × ℕ) : CoordGrids where
  great_circle_angle := fun i j => eyeball_core.great_circle_angle key.1 key.2 i j
  azimuth := fun i j => eyeball_core.azimuth key.1 key.2 i j
  valid_mask := fun i j => eyeball_core.valid_mask key.1 key.2 i j
  radius := fun i j => eyeball_core.radius key.1 key.2 i j
  norm_x := fun _ j => eyeball_core.norm_x key.2 j
  norm_y := fun i _ => eyeball_core.norm_y key.1 i

end eyeball_core

/-- Lookup in a memoization dictionary modelled as an association list. -/
def cacheLookup {K V : Type} [DecidableEq K] : List (K × V) → K → Option V
  | [], _ => none
  | (k', v) :: rest, k => if k' = k then some v else cacheLookup rest k

/-- The memoization pattern shared by get_coordinate_grids_cached (in
spherical_harmonics.py and toys/eyeball_core.py) and
get_fullscreen_coords_cached (toys/eyeball_fullscreen.py): on a miss the
value is computed and inserted, on a hit the stored value is returned
unchanged; the updated dictionary is returned alongside the result. -/
def get_cached {K V : Type} [DecidableEq K] (compute : K → V)
    (cache : List (K × V)) (k : K) : List (K × V) × V :=
  match cacheLookup cache k with
  | some v => (cache, v)
  | none => ((k, compute k) :: cache, compute k)

/-- toys/eyeball_core.py get_coordinate_grids_cached, with the module-global
_coord_cache dictionary passed explicitly as state. -/
noncomputable def get_coordinate_grids_cached
    (cache : List ((ℕ × ℕ) × eyeball_core.CoordGrids)) (Hres Wres : ℕ) :
    List ((ℕ × ℕ) × eyeball_core.CoordGrids) × eyeball_core.CoordGrids :=
  get_cached eyeball_core.compute_grids cache (Hres, Wres)

namespace eyeball_core

/-- The blink-relevant state of EyeballRenderer / FullscreenEyeballRenderer.
has_blink_closing models whether the blink_closing attribute has been set
(the code tests it with hasattr). -/
structure BlinkState where
  blink_state : ℝ
  blink_closing : Bool
  has_blink_closing : Bool
  next_blink_time : ℝ

/-- self.blink_speed, set to 0.2 in both renderers. -/
noncomputable def blink_speed : ℝ := 0.2

/-- update_blinking(current_time) of EyeballRenderer (toys/eyeball_core.py)
and FullscreenEyeballRenderer (toys/eyeball_fullscreen.py); the two bodies are
identical. r1 and r2 stand for the two random.uniform(3.0, 6.0) draws. -/
noncomputable def update_blinking (t r1 r2 : ℝ) (s : BlinkState) : BlinkState :=
  let s1 := if s.next_blink_time = 0 then { s with next_blink_time := t + r1 } else s
  let s2 := if s1.next_blink_time ≤ t ∧ s1.blink_state = 0 then
      { s1 with blink_state := 0.01, blink_closing := true, has_blink_closing := true }
    else s1
  if s2.has_blink_closing ∧ s2.blink_closing then
    let ns := min 1 (s2.blink_state + blink_speed)
    if 1 ≤ ns then { s2 with blink_state := ns, blink_closing := false }
    else { s2 with blink_state := ns }
  else if 0 < s2.blink_state then
    let ns := max 0 (s2.blink_state - blink_speed)
    if ns ≤ 0 then { s2 with blink_state := ns, next_blink_time := t + r2 }
    else { s2 with blink_state := ns }
  else s2

/-- Iterated calls to update_blinking over a list of
(current_time, r1, r2) inputs. -/
noncomputable def run_blinking (ins : List (ℝ × ℝ × ℝ)) (s : BlinkState) : BlinkState :=
  ins.foldl (fun st p => update_blinking p.1 p.2.1 p.2.2 st) s

/-- The renderer state right after __init__: blink_state = 0.0, the
blink_closing attribute not yet set. next_blink_time is 0.0 in
EyeballRenderer and 0.5 in FullscreenEyeballRenderer; it is a parameter here. -/
noncomputable def initial_blink_state (next0 : ℝ) : BlinkState :=
  { blink_state := 0, blink_closing := false, has_blink_closing := false,
    next_blink_time := next0 }

/-- The saccade-relevant state of EyeballRenderer (toys/eyeball_core.py);
FullscreenEyeballRenderer has the same fields under the names
eye_x/eye_y/target_x/target_y. -/
structure EyeState where
  eye_theta : ℝ
  eye_phi : ℝ
  target_theta : ℝ
  target_phi : ℝ
  last_movement_time : ℝ
  movement_interval : ℝ

/-- self.movement_speed, set to 0.05 in both renderers. -/
noncomputable def movement_speed : ℝ := 0.05

/-- self.max_eye_angle of EyeballRenderer: pi / 6. -/
noncomputable def max_eye_angle : ℝ := Real.pi / 6

/-- self.max_eye_movement of FullscreenEyeballRenderer: 0.3. -/
noncomputable def max_eye_movement : ℝ := 0.3

/-- update_eye_movement(current_time) of both renderers: retarget when the
movement interval has elapsed, then linearly interpolate each eye angle
toward its target. rt and rp stand for the two random.uniform draws for the
new target, rI for the random.uniform(2.0, 5.0) new interval. -/
noncomputable def update_eye_movement (t rt rp rI : ℝ) (s : EyeState) : EyeState :=
  let s1 := if s.movement_interval < t - s.last_movement_time then
      { s with target_theta := rt, target_phi := rp,
               last_movement_time := t, movement_interval := rI }
    else s
  { s1 with
    eye_theta := s1.eye_theta + (s1.target_theta - s1.eye_theta) * movement_speed,
    eye_phi := s1.eye_phi + (s1.target_phi - s1.eye_phi) * movement_speed }

end eyeball_core

namespace eyeball_fullscreen

/-- norm_y array of get_fullscreen_coords_cached at row i of an
H_render-tall grid: (i - H_render/2) / (H_render/2). -/
noncomputable def norm_y (Hr i : ℕ) : ℝ := ((i : ℝ) - (Hr : ℝ) / 2) / ((Hr : ℝ) / 2)

/-- blink_steps, the number of precomputed eyelid positions: 20. -/
def blink_steps : ℕ := 20

/-- The lookup key computed in create_eyeball_surface:
round(blink_state * blink_steps) / blink_steps. -/
noncomputable def blink_index (s : ℝ) : ℝ :=
  (pyround (s * (blink_steps : ℝ)) : ℝ) / (blink_steps : ℝ)

/-- Membership of blink_index in the precomputed eyelid_masks dictionary of
get_fullscreen_coords_cached, whose keys are the values i / blink_steps for
i in range(blink_steps + 1) having i / blink_steps > 0.0. -/
def eyelid_mask_found (s : ℝ) : Prop :=
  ∃ i ∈ List.range (blink_steps + 1),
    0 < (i : ℝ) / (blink_steps : ℝ) ∧ blink_index s = (i : ℝ) / (blink_steps : ℝ)

/-- self.eyelid_color: (205, 133, 63). -/
def eyelid_color : ℤ × ℤ × ℤ := (205, 133, 63)

open Classical in
/-- The blink-effect block of FullscreenEyeballRenderer.create_eyeball_surface:
when blink_state > 0 and the rounded key is present in eyelid_masks, pixels
whose norm_y lies beyond the threshold 0.6 * (1 - key) receive eyelid_color;
otherwise the colors are unchanged. -/
noncomputable def apply_blink (Hr : ℕ) (s : ℝ) (colors : ℕ → ℕ → ℤ × ℤ × ℤ) :
    ℕ → ℕ → ℤ × ℤ × ℤ :=
  if 0 < s ∧ eyelid_mask_found s then
    fun i j =>
      if norm_y Hr i > 0.6 * (1 - blink_index s) ∨
          norm_y Hr i < -(0.6 * (1 - blink_index s)) then eyelid_color
      else colors i j
  else colors

end eyeball_fullscreen

namespace gnomonic

/-- The per-pixel normalization factor of gnomonic.py:
norm = sqrt(1 + U^2 + V^2). -/
noncomputable def norm (U V : ℝ) : ℝ := Real.sqrt (1 + U ^ 2 + V ^ 2)

/-- X = 1 / norm from gnomonic.py. -/
noncomputable def X (U V : ℝ) : ℝ := 1 / norm U V

/-- Y = U / norm from gnomonic.py. -/
noncomputable def Y (U V : ℝ) : ℝ := U / norm U V

/-- Z = V / norm from gnomonic.py. -/
noncomputable def Z (U V : ℝ) : ℝ := V / norm U V

/-- The grazing-angle mask of gnomonic.py: mask = X < 0. -/
def mask (U V : ℝ) : Prop := X U V < 0

end gnomonic

namespace spherical_harmonics

/-- spherical_harmonics.values_to_colors applied to one element of the value
array: normalize to [0, 1] with clipping, then the blue-to-white-to-red map,
each channel truncated to an integer in 0..255. -/
noncomputable def values_to_colors (v : ℝ) (min_val : ℝ := -1) (max_val : ℝ := 1) :
    ℤ × ℤ × ℤ :=
  let normalized := min 1 (max 0 ((v - min_val) / (max_val - min_val)))
  if normalized < 0.5 then
    (pytrunc (normalized * 2 * 255), pytrunc (normalized * 2 * 255), 255)
  else
    (255, pytrunc ((1 - (normalized - 0.5) * 2) * 255),
      pytrunc ((1 - (normalized - 0.5) * 2) * 255))

end spherical_harmonics

namespace wireframe_globe

/-- Resolution of a name against the numeric module globals of
wireframe_globe.py: H and W are bound at module level; SCALE_X and SCALE_Y
are neither defined in nor imported into the module, so looking them up
raises NameError. -/
def lookup_global (n : String) : Except String ℝ :=
  if n = "H" then .ok 720
  else if n = "W" then .ok 1280
  else .error ("NameError: name " ++ n ++ " is not defined")

/-- wireframe_globe.sphere_to_screen(theta, phi, rotation_offset), with name
resolution made explicit: the x <= 0 early return happens before any use of
SCALE_X, so only the else branch can raise. -/
noncomputable def sphere_to_screen (theta phi rotation_offset : ℝ) :
    Except String (Option (ℤ × ℤ)) :=
  let phi_rotated := phi + rotation_offset
  let x := Real.cos theta
  let y := Real.sin phi_rotated * Real.sin theta
  let z := Real.cos phi_rotated * Real.sin theta
  if x ≤ 0 then .ok none
  else
    let u := y / x
    let v := z / x
    (lookup_global "SCALE_X").bind fun sx =>
      (lookup_global "W").bind fun w =>
        (lookup_global "SCALE_Y").bind fun sy =>
          (lookup_global "H").bind fun h =>
            let base_aspect : ℝ := 4.0 / 3.0
            let fov_scale : ℝ := 2.0
            let screen_x := pytrunc ((u / (base_aspect * sx * fov_scale) + 1.0) * w / 2.0)
            let screen_y := pytrunc ((1.0 - v / (sy * fov_scale)) * h / 2.0)
            if 0 ≤ screen_x ∧ (screen_x : ℝ) < w ∧ 0 ≤ screen_y ∧ (screen_y : ℝ) < h then
              .ok (some (screen_x, screen_y))
            else .ok none

/-- wireframe_globe.gnomonic_projection(), with name resolution made
explicit: the linspace bounds reference SCALE_X (and SCALE_Y) before anything
else, so every call raises NameError. On the (unreachable) success path the
theta and phi grids are returned as functions of the pixel (i, j). -/
noncomputable def gnomonic_projection : Except String ((ℕ → ℕ → ℝ) × (ℕ → ℕ → ℝ)) :=
  (lookup_global "SCALE_X").bind fun sx =>
    (lookup_global "SCALE_Y").bind fun sy =>
      (lookup_global "W").bind fun w =>
        (lookup_global "H").bind fun h =>
          let base_aspect : ℝ := 4.0 / 3.0
          let fov_scale : ℝ := 2.0
          let a := base_aspect * sx * fov_scale
          let b := sy * fov_scale
          let U : ℕ → ℕ → ℝ := fun _ j => -a + 2 * a * (j : ℝ) / (w - 1)
          let V : ℕ → ℕ → ℝ := fun i _ => -b + 2 * b * (i : ℝ) / (h - 1)
          let n : ℕ → ℕ → ℝ := fun i j => Real.sqrt (1 + U i j ^ 2 + V i j ^ 2)
          let theta : ℕ → ℕ → ℝ := fun i j => Real.arccos (max (-1) (min 1 (V i j / n i j)))
          let phi : ℕ → ℕ → ℝ := fun i j => atan2 (U i j / n i j) (1 / n i j)
          .ok (theta, phi)

end wireframe_globe

/-! ## Helper lemmas -/

theorem pytrunc_of_nonneg {r : ℝ} (h : 0 ≤ r) : pytrunc r = ⌊r⌋ := if_pos h

theorem pytrunc_eq_of {r : ℝ} {n : ℤ} (h0 : 0 ≤ r) (h1 : (n : ℝ) ≤ r)
    (h2 : r < n + 1) : pytrunc r = n := by
  rw [pytrunc_of_nonneg h0]
  exact Int.floor_eq_iff.mpr ⟨h1, h2⟩

/-! ## Claim theorems -/

/-- Claim C9: azimuthal_equidistant_projection is total with an Option-style
result: every input yields none or an integer pair inside the 640x480 screen,
and every input with x <= 0 yields none. -/
theorem aep_total_option (x y z : ℝ) :
    (projection_utils.azimuthal_equidistant_projection x y z = none ∨
      ∃ sx sy : ℤ, projection_utils.azimuthal_equidistant_projection x y z = some (sx, sy) ∧
        0 ≤ sx ∧ sx < 640 ∧ 0 ≤ sy ∧ sy < 480) ∧
    (x ≤ 0 → projection_utils.azimuthal_equidistant_projection x y z = none) := by
  constructor
  · by_cases h1 : x ≤ 0
    · exact Or.inl (by simp [projection_utils.azimuthal_equidistant_projection, h1])
    · by_cases h2 : Real.pi / 2 < projection_utils.great_circle_angle x
      · exact Or.inl (by simp [projection_utils.azimuthal_equidistant_projection, h1, h2])
      · by_cases h3 :
          0 ≤ pytrunc (projection_utils.W / 2 + projection_utils.off_x x y z) ∧
          pytrunc (projection_utils.W / 2 + projection_utils.off_x x y z) < 640 ∧
          0 ≤ pytrunc (projection_utils.H / 2 - projection_utils.off_y x y z) ∧
          pytrunc (projection_utils.H / 2 - projection_utils.off_y x y z) < 480
        · refine Or.inr ⟨_, _, ?_, h3.1, h3.2.1, h3.2.2.1, h3.2.2.2⟩
          simp [projection_utils.azimuthal_equidistant_projection, h1, h2, h3.1,
            h3.2.1, h3.2.2.1, h3.2.2.2]
        · exact Or.inl (by simp only [projection_utils.azimuthal_equidistant_projection,
            if_neg h1, if_neg h2, if_neg h3])
  · intro hx
    simp [projection_utils.azimuthal_equidistant_projection, hx]

/-- Witness for C9 at the concrete input (-1, 0, 0). -/
theorem aep_total_option_witness :
    (projection_utils.azimuthal_equidistant_projection (-1) 0 0 = none ∨
      ∃ sx sy : ℤ,
        projection_utils.azimuthal_equidistant_projection (-1) 0 0 = some (sx, sy) ∧
        0 ≤ sx ∧ sx < 640 ∧ 0 ≤ sy ∧ sy < 480) ∧
    ((-1 : ℝ) ≤ 0 → projection_utils.azimuthal_equidistant_projection (-1) 0 0 = none) :=
  aep_total_option (-1) 0 0

/-- Claim C6: the gnomonic screen-to-sphere mapping always produces unit
directions with positive forward component, so the grazing-angle mask X < 0
selects no pixel and the NaN branch is unreachable. -/
theorem gnomonic_unit_and_mask_dead (U V : ℝ) :
    gnomonic.X U V ^ 2 + gnomonic.Y U V ^ 2 + gnomonic.Z U V ^ 2 = 1 ∧
    0 < gnomonic.X U V ∧ ¬ gnomonic.mask U V := by
  have hpos : 0 < 1 + U ^ 2 + V ^ 2 := by positivity
  have hn : 0 < gnomonic.norm U V := Real.sqrt_pos.mpr hpos
  have hsq : gnomonic.norm U V ^ 2 = 1 + U ^ 2 + V ^ 2 := Real.sq_sqrt hpos.le
  have hX : 0 < gnomonic.X U V := by
    unfold gnomonic.X
    exact div_pos one_pos hn
  refine ⟨?_, hX, ?_⟩
  · have hrw : gnomonic.X U V ^ 2 + gnomonic.Y U V ^ 2 + gnomonic.Z U V ^ 2
        = (1 + U ^ 2 + V ^ 2) / gnomonic.norm U V ^ 2 := by
      unfold gnomonic.X gnomonic.Y gnomonic.Z
      ring
    rw [hrw, hsq, div_self hpos.ne']
  · intro hm
    unfold gnomonic.mask at hm
    exact absurd hm (not_lt.mpr hX.le)

/-- Claim C2: along a fixed azimuth, the per-axis screen offsets produced by
azimuthal_equidistant_projection are linear in the great-circle angle
acos(x): for unit vectors in the forward hemisphere sharing an azimuth, the
offsets stand in the same ratio as the angles (and hence so do the squared
radial distances from the screen centre). -/
theorem aep_radial_linear (x y z x' y' z' : ℝ)
    (hu : x ^ 2 + y ^ 2 + z ^ 2 = 1) (hu' : x' ^ 2 + y' ^ 2 + z' ^ 2 = 1)
    (hx : 0 < x) (hx' : 0 < x')
    (haz : atan2 z y = atan2 z' y') :
    projection_utils.great_circle_angle x = Real.arccos x ∧
    projection_utils.off_x x y z * Real.arccos x' =
      projection_utils.off_x x' y' z' * Real.arccos x ∧
    projection_utils.off_y x y z * Real.arccos x' =
      projection_utils.off_y x' y' z' * Real.arccos x ∧
    (projection_utils.off_x x y z ^ 2 + projection_utils.off_y x y z ^ 2) *
        Real.arccos x' ^ 2 =
      (projection_utils.off_x x' y' z' ^ 2 + projection_utils.off_y x' y' z' ^ 2) *
        Real.arccos x ^ 2 := by
  have hx1 : x ≤ 1 := by nlinarith [sq_nonneg (x - 1), sq_nonneg y, sq_nonneg z]
  have hx1' : x' ≤ 1 := by nlinarith [sq_nonneg (x' - 1), sq_nonneg y', sq_nonneg z']
  have h1 : projection_utils.great_circle_angle x = Real.arccos x := by
    unfold projection_utils.great_circle_angle
    rw [min_eq_right hx1, max_eq_right (by linarith)]
  have h1' : projection_utils.great_circle_angle x' = Real.arccos x' := by
    unfold projection_utils.great_circle_angle
    rw [min_eq_right hx1', max_eq_right (by linarith)]
  refine ⟨h1, ?_, ?_, ?_⟩ <;>
    · simp only [projection_utils.off_x, projection_utils.off_y]
      rw [h1, h1', haz]
      ring

/-- Witness for C2 at the unit vectors (1, 0, 0) and (3/5, 4/5, 0), which
share the azimuth 0. -/
theorem aep_radial_linear_witness :
    (1 : ℝ) ^ 2 + 0 ^ 2 + 0 ^ 2 = 1 ∧ (3 / 5 : ℝ) ^ 2 + (4 / 5) ^ 2 + 0 ^ 2 = 1 ∧
    (0 : ℝ) < 1 ∧ (0 : ℝ) < 3 / 5 ∧ atan2 (0 : ℝ) 0 = atan2 0 (4 / 5) ∧
    (projection_utils.great_circle_angle 1 = Real.arccos 1 ∧
      projection_utils.off_x 1 0 0 * Real.arccos (3 / 5) =
        projection_utils.off_x (3 / 5) (4 / 5) 0 * Real.arccos 1 ∧
      projection_utils.off_y 1 0 0 * Real.arccos (3 / 5) =
        projection_utils.off_y (3 / 5) (4 / 5) 0 * Real.arccos 1 ∧
      (projection_utils.off_x 1 0 0 ^ 2 + projection_utils.off_y 1 0 0 ^ 2) *
          Real.arccos (3 / 5) ^ 2 =
        (projection_utils.off_x (3 / 5) (4 / 5) 0 ^ 2 +
            projection_utils.off_y (3 / 5) (4 / 5) 0 ^ 2) *
          Real.arccos 1 ^ 2) := by
  have h0 : atan2 (0 : ℝ) 0 = 0 := by
    unfold atan2
    exact Complex.arg_zero
  have h4 : atan2 (0 : ℝ) (4 / 5) = 0 := by
    unfold atan2
    have hc : ((⟨4 / 5, 0⟩ : ℂ)) = ((4 / 5 : ℝ) : ℂ) := rfl
    rw [hc]
    exact Complex.arg_ofReal_of_nonneg (by norm_num)
  have haz : atan2 (0 : ℝ) 0 = atan2 0 (4 / 5) := by rw [h0, h4]
  exact ⟨by norm_num, by norm_num, by norm_num, by norm_num, haz,
    aep_radial_linear 1 0 0 (3 / 5) (4 / 5) 0 (by norm_num) (by norm_num)
      one_pos (by norm_num) haz⟩

theorem cacheLookup_mem {K V : Type} [DecidableEq K] {cache : List (K × V)} {k : K}
    {v : V} (h : cacheLookup cache k = some v) : (k, v) ∈ cache := by
  induction cache with
  | nil => simp [cacheLookup] at h
  | cons p rest ih =>
    obtain ⟨k', v'⟩ := p
    rw [cacheLookup] at h
    split at h
    · next heq =>
      obtain rfl := Option.some.inj h
      subst heq
      exact List.mem_cons_self _ _
    · exact List.mem_cons_of_mem _ (ih h)

/-- Claim C3: get_coordinate_grids_cached is a trivial memoization dictionary
keyed only by resolution: from any well-formed cache, the returned grids equal
the uncached computation for that key, the cache stays well-formed, no entry
is ever removed, and a hit returns the stored entry with the cache unchanged. -/
theorem coordinate_grid_cache_correct
    (cache : List ((ℕ × ℕ) × eyeball_core.CoordGrids))
    (hwf : ∀ p ∈ cache, p.2 = eyeball_core.compute_grids p.1) (Hres Wres : ℕ) :
    (get_coordinate_grids_cached cache Hres Wres).2 =
      eyeball_core.compute_grids (Hres, Wres) ∧
    (∀ p ∈ (get_coordinate_grids_cached cache Hres Wres).1,
      p.2 = eyeball_core.compute_grids p.1) ∧
    (∀ p ∈ cache, p ∈ (get_coordinate_grids_cached cache Hres Wres).1) ∧
    (cacheLookup cache (Hres, Wres) = some (eyeball_core.compute_grids (Hres, Wres)) →
      get_coordinate_grids_cached cache Hres Wres =
        (cache, eyeball_core.compute_grids (Hres, Wres))) := by
  unfold get_coordinate_grids_cached get_cached
  cases hl : cacheLookup cache (Hres, Wres) with
  | some v =>
    have hv : v = eyeball_core.compute_grids (Hres, Wres) :=
      hwf _ (cacheLookup_mem hl)
    subst hv
    exact ⟨rfl, hwf, fun p hp => hp, fun _ => rfl⟩
  | none =>
    refine ⟨rfl, ?_, ?_, ?_⟩
    · intro p hp
      rcases List.mem_cons.mp hp with h | h
      · rw [h]
      · exact hwf p h
    · intro p hp
      exact List.mem_cons_of_mem _ hp
    · intro habs
      exact Option.noConfusion habs

/-- Witness for C3: the empty cache (vacuously well-formed) at the resolution
pair (180, 320) used by the eyeball renderer. -/
theorem coordinate_grid_cache_correct_witness :
    (get_coordinate_grids_cached [] 180 320).2 =
      eyeball_core.compute_grids (180, 320) ∧
    (∀ p ∈ (get_coordinate_grids_cached [] 180 320).1,
      p.2 = eyeball_core.compute_grids p.1) ∧
    (∀ p ∈ ([] : List ((ℕ × ℕ) × eyeball_core.CoordGrids)),
      p ∈ (get_coordinate_grids_cached [] 180 320).1) ∧
    (cacheLookup [] (180, 320) = some (eyeball_core.compute_grids (180, 320)) →
      get_coordinate_grids_cached [] 180 320 =
        ([], eyeball_core.compute_grids (180, 320))) :=
  coordinate_grid_cache_correct [] (by simp) 180 320

/-- Claim C7: values_to_colors is the clipped blue-to-white-to-red map: every
channel lies in 0..255, inputs at or below -1 give pure blue, input 0 gives
white, inputs at or above +1 give pure red, and on each side of the midpoint
of the clipped normalization (value + 1) / 2 the expected channels saturate
while the others ramp linearly (up to integer truncation). -/
theorem values_to_colors_colormap (v : ℝ) :
    ∃ r g b : ℤ, spherical_harmonics.values_to_colors v = (r, g, b) ∧
      (0 ≤ r ∧ r ≤ 255 ∧ 0 ≤ g ∧ g ≤ 255 ∧ 0 ≤ b ∧ b ≤ 255) ∧
      (v ≤ -1 → (r, g, b) = (0, 0, 255)) ∧
      (1 ≤ v → (r, g, b) = (255, 0, 0)) ∧
      spherical_harmonics.values_to_colors 0 = (255, 255, 255) ∧
      (min 1 (max 0 ((v + 1) / 2)) < 0.5 →
        b = 255 ∧ r = pytrunc (min 1 (max 0 ((v + 1) / 2)) * 2 * 255) ∧ g = r) ∧
      (¬ min 1 (max 0 ((v + 1) / 2)) < 0.5 →
        r = 255 ∧
        g = pytrunc ((1 - (min 1 (max 0 ((v + 1) / 2)) - 0.5) * 2) * 255) ∧ b = g) := by
  have hsame : (v - (-1)) / (1 - (-1)) = (v + 1) / 2 := by ring
  have h255 : pytrunc 255 = 255 := pytrunc_eq_of (by norm_num) (by norm_num) (by norm_num)
  have hval0 : spherical_harmonics.values_to_colors 0 = (255, 255, 255) := by
    unfold spherical_harmonics.values_to_colors
    rw [show min (1 : ℝ) (max 0 ((0 - -1) / (1 - -1))) = 1 / 2 by norm_num]
    rw [if_neg (by norm_num)]
    rw [show ((1 : ℝ) - (1 / 2 - 0.5) * 2) * 255 = 255 by norm_num, h255]
  set N := min 1 (max 0 ((v + 1) / 2)) with hNdef
  have hunfold : spherical_harmonics.values_to_colors v =
      if N < 0.5 then (pytrunc (N * 2 * 255), pytrunc (N * 2 * 255), 255)
      else (255, pytrunc ((1 - (N - 0.5) * 2) * 255),
        pytrunc ((1 - (N - 0.5) * 2) * 255)) := by
    unfold spherical_harmonics.values_to_colors
    rw [hsame]
  have hN0 : 0 ≤ N := le_min zero_le_one (le_max_left 0 _)
  have hN1 : N ≤ 1 := min_le_left _ _
  have hlow : v ≤ -1 → N = 0 := by
    intro hv
    rw [hNdef, max_eq_left (by linarith : (v + 1) / 2 ≤ 0)]
    exact min_eq_right (by norm_num)
  have hhigh : 1 ≤ v → N = 1 := by
    intro hv
    rw [hNdef, max_eq_right (by linarith : (0 : ℝ) ≤ (v + 1) / 2)]
    exact min_eq_left (by linarith)
  rcases lt_or_le N 0.5 with hlt | hge
  · have harg0 : 0 ≤ N * 2 * 255 := by positivity
    have htf : pytrunc (N * 2 * 255) = ⌊N * 2 * 255⌋ := pytrunc_of_nonneg harg0
    have ht0 : 0 ≤ pytrunc (N * 2 * 255) := htf ▸ Int.floor_nonneg.mpr harg0
    have htlt : pytrunc (N * 2 * 255) < 255 := by
      rw [htf]
      refine Int.floor_lt.mpr ?_
      push_cast
      nlinarith
    refine ⟨pytrunc (N * 2 * 255), pytrunc (N * 2 * 255), 255,
      by rw [hunfold, if_pos hlt], ⟨ht0, htlt.le, ht0, htlt.le, by norm_num, by norm_num⟩,
      ?_, ?_, hval0, fun _ => ⟨rfl, rfl, rfl⟩, fun hcon => absurd hlt hcon⟩
    · intro hv
      have hN : N = 0 := hlow hv
      have : pytrunc (N * 2 * 255) = 0 := by
        rw [hN, show (0 : ℝ) * 2 * 255 = 0 by norm_num]
        exact pytrunc_eq_of le_rfl (by norm_num) (by norm_num)
      rw [this]
    · intro hv
      exact absurd (hhigh hv ▸ hlt) (by norm_num)
  · have harg0 : 0 ≤ (1 - (N - 0.5) * 2) * 255 := by nlinarith
    have htf : pytrunc ((1 - (N - 0.5) * 2) * 255) = ⌊(1 - (N - 0.5) * 2) * 255⌋ :=
      pytrunc_of_nonneg harg0
    have ht0 : 0 ≤ pytrunc ((1 - (N - 0.5) * 2) * 255) := htf ▸ Int.floor_nonneg.mpr harg0
    have htle : pytrunc ((1 - (N - 0.5) * 2) * 255) ≤ 255 := by
      rw [htf]
      have : ⌊(1 - (N - 0.5) * 2) * 255⌋ < 256 := by
        refine Int.floor_lt.mpr ?_
        push_cast
        nlinarith
      omega
    refine ⟨255, pytrunc ((1 - (N - 0.5) * 2) * 255), pytrunc ((1 - (N - 0.5) * 2) * 255),
      by rw [hunfold, if_neg (not_lt.mpr hge)],
      ⟨by norm_num, by norm_num, ht0, htle, ht0, htle⟩,
      ?_, ?_, hval0, fun hcon => absurd hcon (not_lt.mpr hge), fun _ => ⟨rfl, rfl, rfl⟩⟩
    · intro hv
      have hN : N = 0 := hlow hv
      rw [hN] at hge
      norm_num at hge
    · intro hv
      have hN : N = 1 := hhigh hv
      have : pytrunc ((1 - (N - 0.5) * 2) * 255) = 0 := by
        rw [hN, show ((1 : ℝ) - (1 - 0.5) * 2) * 255 = 0 by norm_num]
        exact pytrunc_eq_of le_rfl (by norm_num) (by norm_num)
      rw [this]

/-- Witness for C7 at the concrete input -2, which lies below the clip. -/
theorem values_to_colors_colormap_witness :
    ∃ r g b : ℤ, spherical_harmonics.values_to_colors (-2) = (r, g, b) ∧
      (0 ≤ r ∧ r ≤ 255 ∧ 0 ≤ g ∧ g ≤ 255 ∧ 0 ≤ b ∧ b ≤ 255) ∧
      ((-2 : ℝ) ≤ -1 → (r, g, b) = (0, 0, 255)) ∧
      ((1 : ℝ) ≤ -2 → (r, g, b) = (255, 0, 0)) ∧
      spherical_harmonics.values_to_colors 0 = (255, 255, 255) ∧
      (min 1 (max 0 (((-2 : ℝ) + 1) / 2)) < 0.5 →
        b = 255 ∧ r = pytrunc (min 1 (max 0 (((-2 : ℝ) + 1) / 2)) * 2 * 255) ∧ g = r) ∧
      (¬ min 1 (max 0 (((-2 : ℝ) + 1) / 2)) < 0.5 →
        r = 255 ∧
        g = pytrunc ((1 - (min 1 (max 0 (((-2 : ℝ) + 1) / 2)) - 0.5) * 2) * 255) ∧
        b = g) :=
  values_to_colors_colormap (-2)

/-- Claim C5: update_eye_movement performs the convex combination
(1 - movement_speed) * eye + movement_speed * target on each angle (with the
possibly retargeted values), never increases the distance from an eye angle
to its current target, and preserves the interval
[-max_angle, +max_angle] provided the random target draws come from it. -/
theorem eye_movement_interpolation (A t rt rp rI : ℝ) (s : eyeball_core.EyeState)
    (het : -A ≤ s.eye_theta ∧ s.eye_theta ≤ A)
    (hep : -A ≤ s.eye_phi ∧ s.eye_phi ≤ A)
    (htt : -A ≤ s.target_theta ∧ s.target_theta ≤ A)
    (htp : -A ≤ s.target_phi ∧ s.target_phi ≤ A)
    (hrt : -A ≤ rt ∧ rt ≤ A) (hrp : -A ≤ rp ∧ rp ≤ A) :
    (eyeball_core.update_eye_movement t rt rp rI s).eye_theta =
      (1 - eyeball_core.movement_speed) * s.eye_theta +
        eyeball_core.movement_speed * (eyeball_core.update_eye_movement t rt rp rI s).target_theta ∧
    (eyeball_core.update_eye_movement t rt rp rI s).eye_phi =
      (1 - eyeball_core.movement_speed) * s.eye_phi +
        eyeball_core.movement_speed * (eyeball_core.update_eye_movement t rt rp rI s).target_phi ∧
    |(eyeball_core.update_eye_movement t rt rp rI s).eye_theta -
        (eyeball_core.update_eye_movement t rt rp rI s).target_theta| ≤
      |s.eye_theta - (eyeball_core.update_eye_movement t rt rp rI s).target_theta| ∧
    |(eyeball_core.update_eye_movement t rt rp rI s).eye_phi -
        (eyeball_core.update_eye_movement t rt rp rI s).target_phi| ≤
      |s.eye_phi - (eyeball_core.update_eye_movement t rt rp rI s).target_phi| ∧
    (-A ≤ (eyeball_core.update_eye_movement t rt rp rI s).eye_theta ∧
      (eyeball_core.update_eye_movement t rt rp rI s).eye_theta ≤ A) ∧
    (-A ≤ (eyeball_core.update_eye_movement t rt rp rI s).eye_phi ∧
      (eyeball_core.update_eye_movement t rt rp rI s).eye_phi ≤ A) ∧
    (-A ≤ (eyeball_core.update_eye_movement t rt rp rI s).target_theta ∧
      (eyeball_core.update_eye_movement t rt rp rI s).target_theta ≤ A) ∧
    (-A ≤ (eyeball_core.update_eye_movement t rt rp rI s).target_phi ∧
      (eyeball_core.update_eye_movement t rt rp rI s).target_phi ≤ A) := by
  have key : ∀ e tg : ℝ, |e + (tg - e) * eyeball_core.movement_speed - tg| ≤ |e - tg| := by
    intro e tg
    have h1 : e + (tg - e) * eyeball_core.movement_speed - tg =
        (1 - eyeball_core.movement_speed) * (e - tg) := by
      unfold eyeball_core.movement_speed
      ring
    have h2 : |(1 : ℝ) - eyeball_core.movement_speed| = 0.95 := by
      unfold eyeball_core.movement_speed
      rw [abs_of_nonneg (by norm_num)]
      norm_num
    rw [h1, abs_mul, h2]
    nlinarith [abs_nonneg (e - tg)]
  have keybound : ∀ e tg : ℝ, -A ≤ e → e ≤ A → -A ≤ tg → tg ≤ A →
      -A ≤ e + (tg - e) * eyeball_core.movement_speed ∧
        e + (tg - e) * eyeball_core.movement_speed ≤ A := by
    intro e tg h1 h2 h3 h4
    unfold eyeball_core.movement_speed
    constructor <;> nlinarith
  by_cases htr : s.movement_interval < t - s.last_movement_time
  · simp only [eyeball_core.update_eye_movement, if_pos htr]
    refine ⟨by ring, by ring, key _ _, key _ _, keybound _ _ het.1 het.2 hrt.1 hrt.2,
      keybound _ _ hep.1 hep.2 hrp.1 hrp.2, hrt, hrp⟩
  · simp only [eyeball_core.update_eye_movement, if_neg htr]
    refine ⟨by ring, by ring, key _ _, key _ _, keybound _ _ het.1 het.2 htt.1 htt.2,
      keybound _ _ hep.1 hep.2 htp.1 htp.2, htt, htp⟩

/-- Witness for C5 with max angle max_eye_angle = pi/6 and a concrete state
inside the interval. -/
theorem eye_movement_interpolation_witness :
    (eyeball_core.update_eye_movement 0 0.2 0.1 2 ⟨0.1, -0.2, 0.3, 0, 0, 1⟩).eye_theta =
      (1 - eyeball_core.movement_speed) * (0.1 : ℝ) +
        eyeball_core.movement_speed *
          (eyeball_core.update_eye_movement 0 0.2 0.1 2 ⟨0.1, -0.2, 0.3, 0, 0, 1⟩).target_theta ∧
    (eyeball_core.update_eye_movement 0 0.2 0.1 2 ⟨0.1, -0.2, 0.3, 0, 0, 1⟩).eye_phi =
      (1 - eyeball_core.movement_speed) * (-0.2 : ℝ) +
        eyeball_core.movement_speed *
          (eyeball_core.update_eye_movement 0 0.2 0.1 2 ⟨0.1, -0.2, 0.3, 0, 0, 1⟩).target_phi ∧
    |(eyeball_core.update_eye_movement 0 0.2 0.1 2 ⟨0.1, -0.2, 0.3, 0, 0, 1⟩).eye_theta -
        (eyeball_core.update_eye_movement 0 0.2 0.1 2 ⟨0.1, -0.2, 0.3, 0, 0, 1⟩).target_theta| ≤
      |(0.1 : ℝ) -
        (eyeball_core.update_eye_movement 0 0.2 0.1 2 ⟨0.1, -0.2, 0.3, 0, 0, 1⟩).target_theta| ∧
    |(eyeball_core.update_eye_movement 0 0.2 0.1 2 ⟨0.1, -0.2, 0.3, 0, 0, 1⟩).eye_phi -
        (eyeball_core.update_eye_movement 0 0.2 0.1 2 ⟨0.1, -0.2, 0.3, 0, 0, 1⟩).target_phi| ≤
      |(-0.2 : ℝ) -
        (eyeball_core.update_eye_movement 0 0.2 0.1 2 ⟨0.1, -0.2, 0.3, 0, 0, 1⟩).target_phi| ∧
    (-eyeball_core.max_eye_angle ≤
        (eyeball_core.update_eye_movement 0 0.2 0.1 2 ⟨0.1, -0.2, 0.3, 0, 0, 1⟩).eye_theta ∧
      (eyeball_core.update_eye_movement 0 0.2 0.1 2 ⟨0.1, -0.2, 0.3, 0, 0, 1⟩).eye_theta ≤
        eyeball_core.max_eye_angle) ∧
    (-eyeball_core.max_eye_angle ≤
        (eyeball_core.update_eye_movement 0 0.2 0.1 2 ⟨0.1, -0.2, 0.3, 0, 0, 1⟩).eye_phi ∧
      (eyeball_core.update_eye_movement 0 0.2 0.1 2 ⟨0.1, -0.2, 0.3, 0, 0, 1⟩).eye_phi ≤
        eyeball_core.max_eye_angle) ∧
    (-eyeball_core.max_eye_angle ≤
        (eyeball_core.update_eye_movement 0 0.2 0.1 2 ⟨0.1, -0.2, 0.3, 0, 0, 1⟩).target_theta ∧
      (eyeball_core.update_eye_movement 0 0.2 0.1 2 ⟨0.1, -0.2, 0.3, 0, 0, 1⟩).target_theta ≤
        eyeball_core.max_eye_angle) ∧
    (-eyeball_core.max_eye_angle ≤
        (eyeball_core.update_eye_movement 0 0.2 0.1 2 ⟨0.1, -0.2, 0.3, 0, 0, 1⟩).target_phi ∧
      (eyeball_core.update_eye_movement 0 0.2 0.1 2 ⟨0.1, -0.2, 0.3, 0, 0, 1⟩).target_phi ≤
        eyeball_core.max_eye_angle) := by
  have hpi := Real.pi_gt_three
  have hA : (0.3 : ℝ) ≤ eyeball_core.max_eye_angle := by
    unfold eyeball_core.max_eye_angle
    linarith
  exact eye_movement_interpolation eyeball_core.max_eye_angle 0 0.2 0.1 2
    ⟨0.1, -0.2, 0.3, 0, 0, 1⟩
    ⟨by simp only; linarith, by simp only; linarith⟩
    ⟨by simp only; linarith, by simp only; linarith⟩
    ⟨by simp only; linarith, by simp only; linarith⟩
    ⟨by simp only; linarith, by simp only; linarith⟩
    ⟨by linarith, by linarith⟩ ⟨by linarith, by linarith⟩

/-- Counterexample for C4: the call that initiates a blink (entered with
blink_state = 0.0 and the blink timer expired) raises blink_state to
0.01 + blink_speed = 0.21, an increase different from blink_speed, even
though the blink is then in its closing phase. -/
theorem blink_trigger_step_counterexample :
    (eyeball_core.update_blinking 2 0 0 ⟨0, false, false, 1⟩).blink_state = 0.21 ∧
    (eyeball_core.update_blinking 2 0 0 ⟨0, false, false, 1⟩).blink_closing = true ∧
    (eyeball_core.update_blinking 2 0 0 ⟨0, false, false, 1⟩).blink_state - 0 ≠
      eyeball_core.blink_speed := by
  refine ⟨?_, ?_, ?_⟩ <;>
    · simp only [eyeball_core.update_blinking, eyeball_core.blink_speed]
      norm_num [min_def]

theorem blink_step_invariant (t r1 r2 : ℝ) (s : eyeball_core.BlinkState)
    (h0 : 0 ≤ s.blink_state) (h1 : s.blink_state ≤ 1) :
    0 ≤ (eyeball_core.update_blinking t r1 r2 s).blink_state ∧
      (eyeball_core.update_blinking t r1 r2 s).blink_state ≤ 1 := by
  unfold eyeball_core.update_blinking
  simp only [eyeball_core.blink_speed]
  set s1 := if s.next_blink_time = 0 then { s with next_blink_time := t + r1 } else s with hs1
  have hs1b : s1.blink_state = s.blink_state := by
    rw [hs1]
    split <;> rfl
  set s2 := if s1.next_blink_time ≤ t ∧ s1.blink_state = 0 then
      { s1 with blink_state := 0.01, blink_closing := true, has_blink_closing := true }
    else s1 with hs2
  have hs2b : 0 ≤ s2.blink_state ∧ s2.blink_state ≤ 1 := by
    rw [hs2]
    split
    · exact ⟨by norm_num, by norm_num⟩
    · rw [hs1b]
      exact ⟨h0, h1⟩
  obtain ⟨h20, h21⟩ := hs2b
  split
  · split <;> exact ⟨le_min (by norm_num) (by linarith), min_le_left _ _⟩
  · split
    · split <;> exact ⟨le_max_left _ _, max_le (by norm_num) (by linarith)⟩
    · exact ⟨h20, h21⟩

theorem blink_run_invariant (ins : List (ℝ × ℝ × ℝ)) (s : eyeball_core.BlinkState)
    (h0 : 0 ≤ s.blink_state) (h1 : s.blink_state ≤ 1) :
    0 ≤ (eyeball_core.run_blinking ins s).blink_state ∧
      (eyeball_core.run_blinking ins s).blink_state ≤ 1 := by
  induction ins generalizing s with
  | nil => exact ⟨h0, h1⟩
  | cons p rest ih =>
    have hstep := blink_step_invariant p.1 p.2.1 p.2.2 s h0 h1
    exact ih _ hstep.1 hstep.2

/-- Claim C4 (amended): blink_state stays in [0, 1] from the initial state for
every call sequence; a closing-phase call adds exactly blink_speed while the
sum stays at most 1 and clamps to 1 once the sum reaches 1 (switching to
opening); an opening call subtracts exactly blink_speed and lands exactly on 0
once blink_state is at most blink_speed; but the call that initiates a blink
first sets blink_state to 0.01 and then adds blink_speed, a net increase of
0.01 + blink_speed rather than blink_speed. -/
theorem blink_linear_ramp_amended (t r1 r2 : ℝ) (s : eyeball_core.BlinkState)
    (h0 : 0 ≤ s.blink_state) (h1 : s.blink_state ≤ 1) :
    (0 ≤ (eyeball_core.update_blinking t r1 r2 s).blink_state ∧
      (eyeball_core.update_blinking t r1 r2 s).blink_state ≤ 1) ∧
    (s.has_blink_closing = true → s.blink_closing = true → 0 < s.blink_state →
      s.blink_state + eyeball_core.blink_speed ≤ 1 →
      (eyeball_core.update_blinking t r1 r2 s).blink_state =
        s.blink_state + eyeball_core.blink_speed) ∧
    (s.has_blink_closing = true → s.blink_closing = true → 0 < s.blink_state →
      1 ≤ s.blink_state + eyeball_core.blink_speed →
      (eyeball_core.update_blinking t r1 r2 s).blink_state = 1 ∧
        (eyeball_core.update_blinking t r1 r2 s).blink_closing = false) ∧
    (¬ (s.has_blink_closing = true ∧ s.blink_closing = true) → 0 < s.blink_state →
      eyeball_core.blink_speed ≤ s.blink_state →
      (eyeball_core.update_blinking t r1 r2 s).blink_state =
        s.blink_state - eyeball_core.blink_speed) ∧
    (¬ (s.has_blink_closing = true ∧ s.blink_closing = true) → 0 < s.blink_state →
      s.blink_state ≤ eyeball_core.blink_speed →
      (eyeball_core.update_blinking t r1 r2 s).blink_state = 0) ∧
    (s.next_blink_time ≠ 0 → s.next_blink_time ≤ t → s.blink_state = 0 →
      (eyeball_core.update_blinking t r1 r2 s).blink_state =
        0.01 + eyeball_core.blink_speed) ∧
    (∀ next0 : ℝ, ∀ ins : List (ℝ × ℝ × ℝ),
      0 ≤ (eyeball_core.run_blinking ins (eyeball_core.initial_blink_state next0)).blink_state ∧
      (eyeball_core.run_blinking ins (eyeball_core.initial_blink_state next0)).blink_state ≤ 1) := by
  refine ⟨blink_step_invariant t r1 r2 s h0 h1, ?_, ?_, ?_, ?_, ?_, ?_⟩
  · intro hhas hcl hpos hle
    simp only [eyeball_core.blink_speed] at hle ⊢
    rcases eq_or_ne s.next_blink_time 0 with hn | hn <;>
      simp only [eyeball_core.update_blinking, eyeball_core.blink_speed, hn, if_true, if_false,
        eq_self_iff_true, hpos.ne', and_false, and_true, hhas, hcl, and_self, if_pos,
        ite_true, ite_false] <;>
      · rw [min_eq_right hle]
        split <;> rfl
  · intro hhas hcl hpos hge
    simp only [eyeball_core.blink_speed] at hge ⊢
    rcases eq_or_ne s.next_blink_time 0 with hn | hn <;>
      simp only [eyeball_core.update_blinking, eyeball_core.blink_speed, hn, if_true, if_false,
        eq_self_iff_true, hpos.ne', and_false, and_true, hhas, hcl, and_self, if_pos,
        ite_true, ite_false] <;>
      · rw [min_eq_left hge, if_pos (le_refl (1 : ℝ))]
        exact ⟨rfl, rfl⟩
  · intro hnc hpos hsge
    simp only [eyeball_core.blink_speed] at hsge ⊢
    rcases eq_or_ne s.next_blink_time 0 with hn | hn <;>
      simp only [eyeball_core.update_blinking, eyeball_core.blink_speed, hn, if_true, if_false,
        eq_self_iff_true, hpos.ne', and_false, ite_true, ite_false] <;>
      · rw [if_neg hnc, if_pos hpos, max_eq_right (by linarith)]
        split <;> rfl
  · intro hnc hpos hsle
    simp only [eyeball_core.blink_speed] at hsle ⊢
    rcases eq_or_ne s.next_blink_time 0 with hn | hn <;>
      simp only [eyeball_core.update_blinking, eyeball_core.blink_speed, hn, if_true, if_false,
        eq_self_iff_true, hpos.ne', and_false, ite_true, ite_false] <;>
      · rw [if_neg hnc, if_pos hpos, max_eq_left (by linarith)]
        split <;> rfl
  · intro hn hnt hz
    simp only [eyeball_core.update_blinking, eyeball_core.blink_speed, hn, hnt, hz, if_false,
      ite_false, ite_true, eq_self_iff_true, and_self, if_true, and_true, true_and]
    norm_num [min_def]
  · intro next0 ins
    exact blink_run_invariant ins (eyeball_core.initial_blink_state next0)
      (le_refl 0) (by norm_num [eyeball_core.initial_blink_state])

/-- Witness for C4 (amended) at a concrete closing-phase state with
blink_state = 0.5. -/
theorem blink_linear_ramp_amended_witness :
    (0 ≤ (eyeball_core.update_blinking 0 0 0 ⟨0.5, true, true, 1⟩).blink_state ∧
      (eyeball_core.update_blinking 0 0 0 ⟨0.5, true, true, 1⟩).blink_state ≤ 1) ∧
    ((true : Bool) = true → (true : Bool) = true → (0 : ℝ) < 0.5 →
      (0.5 : ℝ) + eyeball_core.blink_speed ≤ 1 →
      (eyeball_core.update_blinking 0 0 0 ⟨0.5, true, true, 1⟩).blink_state =
        0.5 + eyeball_core.blink_speed) ∧
    ((true : Bool) = true → (true : Bool) = true → (0 : ℝ) < 0.5 →
      1 ≤ (0.5 : ℝ) + eyeball_core.blink_speed →
      (eyeball_core.update_blinking 0 0 0 ⟨0.5, true, true, 1⟩).blink_state = 1 ∧
        (eyeball_core.update_blinking 0 0 0 ⟨0.5, true, true, 1⟩).blink_closing = false) ∧
    (¬ ((true : Bool) = true ∧ (true : Bool) = true) → (0 : ℝ) < 0.5 →
      eyeball_core.blink_speed ≤ 0.5 →
      (eyeball_core.update_blinking 0 0 0 ⟨0.5, true, true, 1⟩).blink_state =
        0.5 - eyeball_core.blink_speed) ∧
    (¬ ((true : Bool) = true ∧ (true : Bool) = true) → (0 : ℝ) < 0.5 →
      (0.5 : ℝ) ≤ eyeball_core.blink_speed →
      (eyeball_core.update_blinking 0 0 0 ⟨0.5, true, true, 1⟩).blink_state = 0) ∧
    ((1 : ℝ) ≠ 0 → (1 : ℝ) ≤ 0 → (0.5 : ℝ) = 0 →
      (eyeball_core.update_blinking 0 0 0 ⟨0.5, true, true, 1⟩).blink_state =
        0.01 + eyeball_core.blink_speed) ∧
    (∀ next0 : ℝ, ∀ ins : List (ℝ × ℝ × ℝ),
      0 ≤ (eyeball_core.run_blinking ins (eyeball_core.initial_blink_state next0)).blink_state ∧
      (eyeball_core.run_blinking ins (eyeball_core.initial_blink_state next0)).blink_state ≤ 1) :=
  blink_linear_ramp_amended 0 0 0 ⟨0.5, true, true, 1⟩ (by norm_num) (by norm_num)

theorem pyround_nonneg {x : ℝ} (h : 0 ≤ x) : 0 ≤ pyround x := by
  have hf : 0 ≤ ⌊x⌋ := Int.floor_nonneg.mpr h
  unfold pyround
  split
  · exact hf
  · split
    · omega
    · split
      · exact hf
      · omega

theorem pyround_le {x : ℝ} {n : ℤ} (h : x ≤ (n : ℝ)) : pyround x ≤ n := by
  have hfl : ⌊x⌋ ≤ n := by
    have hmono := Int.floor_le_floor h
    rwa [Int.floor_intCast] at hmono
  rcases lt_or_eq_of_le hfl with hlt | heq
  · unfold pyround
    split
    · omega
    · split
      · omega
      · split <;> omega
  · have hxn : x = (n : ℝ) := le_antisymm h (by rw [← heq]; exact Int.floor_le x)
    rw [hxn]
    unfold pyround
    rw [Int.fract_intCast, if_pos (by norm_num : (0 : ℝ) < 1 / 2)]
    exact le_of_eq (Int.floor_intCast n)

/-- Claim C10: when blink_state > 0 but round(blink_state * 20) = 0, the
rounded key 0.0 is absent from the precomputed eyelid-mask dictionary, so the
blink block leaves the colors unchanged; when round(blink_state * 20) >= 1,
the key is present and pixels beyond the eyelid threshold receive
eyelid_color. -/
theorem eyelid_mask_lookup (s : ℝ) (h0 : 0 < s) (h1 : s ≤ 1) :
    (pyround (s * (eyeball_fullscreen.blink_steps : ℝ)) = 0 →
      ¬ eyeball_fullscreen.eyelid_mask_found s ∧
      ∀ (Hr : ℕ) (colors : ℕ → ℕ → ℤ × ℤ × ℤ),
        eyeball_fullscreen.apply_blink Hr s colors = colors) ∧
    (1 ≤ pyround (s * (eyeball_fullscreen.blink_steps : ℝ)) →
      eyeball_fullscreen.eyelid_mask_found s ∧
      ∀ (Hr : ℕ) (colors : ℕ → ℕ → ℤ × ℤ × ℤ) (i j : ℕ),
        (eyeball_fullscreen.norm_y Hr i > 0.6 * (1 - eyeball_fullscreen.blink_index s) ∨
          eyeball_fullscreen.norm_y Hr i < -(0.6 * (1 - eyeball_fullscreen.blink_index s))) →
        eyeball_fullscreen.apply_blink Hr s colors i j =
          eyeball_fullscreen.eyelid_color) := by
  have hbs : ((eyeball_fullscreen.blink_steps : ℕ) : ℝ) = 20 := by
    norm_num [eyeball_fullscreen.blink_steps]
  constructor
  · intro hk
    have hbi : eyeball_fullscreen.blink_index s = 0 := by
      unfold eyeball_fullscreen.blink_index
      rw [hk]
      norm_num
    have hnot : ¬ eyeball_fullscreen.eyelid_mask_found s := by
      rintro ⟨i, hmem, hipos, heq⟩
      rw [hbi] at heq
      rw [← heq] at hipos
      exact lt_irrefl 0 hipos
    refine ⟨hnot, ?_⟩
    intro Hr colors
    unfold eyeball_fullscreen.apply_blink
    rw [if_neg (fun hc => hnot hc.2)]
  · intro hk
    have hk20 : pyround (s * (eyeball_fullscreen.blink_steps : ℝ)) ≤ 20 := by
      refine pyround_le ?_
      rw [hbs]
      push_cast
      nlinarith
    set k := pyround (s * (eyeball_fullscreen.blink_steps : ℝ)) with hkdef
    have hcast : ((k.toNat : ℕ) : ℝ) = (k : ℝ) := by
      have hz : ((k.toNat : ℕ) : ℤ) = k := Int.toNat_of_nonneg (by omega)
      exact_mod_cast hz
    have hfound : eyeball_fullscreen.eyelid_mask_found s := by
      refine ⟨k.toNat, List.mem_range.mpr ?_, ?_, ?_⟩
      · simp only [eyeball_fullscreen.blink_steps]
        omega
      · rw [hbs, hcast]
        refine div_pos ?_ (by norm_num)
        exact_mod_cast hk
      · unfold eyeball_fullscreen.blink_index
        rw [← hkdef, hcast]
    refine ⟨hfound, ?_⟩
    intro Hr colors i j hcond
    unfold eyeball_fullscreen.apply_blink
    rw [if_pos ⟨h0, hfound⟩]
    exact if_pos hcond

/-- Witness for C10 at blink_state = 0.01, the first closing frame: the
rounded key is 0 and absent from the dictionary. -/
theorem eyelid_mask_lookup_witness :
    (0 : ℝ) < 0.01 ∧ (0.01 : ℝ) ≤ 1 ∧
    pyround (0.01 * (eyeball_fullscreen.blink_steps : ℝ)) = 0 ∧
    ¬ eyeball_fullscreen.eyelid_mask_found 0.01 := by
  have h0 : (0 : ℝ) < 0.01 := by norm_num
  have h1 : (0.01 : ℝ) ≤ 1 := by norm_num
  have hval : (0.01 : ℝ) * ((eyeball_fullscreen.blink_steps : ℕ) : ℝ) = 0.2 := by
    norm_num [eyeball_fullscreen.blink_steps]
  have hp : pyround ((0.01 : ℝ) * (eyeball_fullscreen.blink_steps : ℝ)) = 0 := by
    rw [hval]
    unfold pyround
    rw [Int.fract_eq_self.mpr ⟨by norm_num, by norm_num⟩]
    rw [if_pos (by norm_num : (0.2 : ℝ) < 1 / 2)]
    exact Int.floor_eq_iff.mpr ⟨by norm_num, by norm_num⟩
  exact ⟨h0, h1, hp, ((eyelid_mask_lookup 0.01 h0 h1).1 hp).1⟩

/-- Counterexample for C8: sphere_to_screen called with theta = pi (so
cos(theta) = -1 <= 0) takes the early return and yields (None, None) normally,
never reaching the undefined SCALE_X. -/
theorem sphere_to_screen_returns_normally :
    wireframe_globe.sphere_to_screen Real.pi 0 0 = .ok none ∧
    wireframe_globe.sphere_to_screen Real.pi 0 0 ≠
      .error "NameError: name SCALE_X is not defined" := by
  have h : wireframe_globe.sphere_to_screen Real.pi 0 0 = .ok none := by
    simp only [wireframe_globe.sphere_to_screen]
    rw [if_pos (by rw [Real.cos_pi]; norm_num : Real.cos Real.pi ≤ 0)]
  refine ⟨h, ?_⟩
  rw [h]
  exact fun habs => Except.noConfusion habs

/-- Claim C8 (amended): gnomonic_projection always raises NameError for
SCALE_X; sphere_to_screen raises NameError exactly when cos(theta) > 0, and
returns (None, None) normally when cos(theta) <= 0. -/
theorem wireframe_nameerror_amended :
    (∀ theta phi rot : ℝ, 0 < Real.cos theta →
      wireframe_globe.sphere_to_screen theta phi rot =
        .error "NameError: name SCALE_X is not defined") ∧
    (∀ theta phi rot : ℝ, Real.cos theta ≤ 0 →
      wireframe_globe.sphere_to_screen theta phi rot = .ok none) ∧
    wireframe_globe.gnomonic_projection =
      .error "NameError: name SCALE_X is not defined" := by
  refine ⟨?_, ?_, ?_⟩
  · intro theta phi rot hc
    simp only [wireframe_globe.sphere_to_screen]
    rw [if_neg (not_le.mpr hc)]
    rfl
  · intro theta phi rot hc
    simp only [wireframe_globe.sphere_to_screen]
    rw [if_pos hc]
  · rfl

/-- Witness for C8 (amended) at theta = 0 (forward, raises) and theta = pi
(behind, returns normally). -/
theorem wireframe_nameerror_amended_witness :
    wireframe_globe.sphere_to_screen 0 0 0 =
      .error "NameError: name SCALE_X is not defined" ∧
    wireframe_globe.sphere_to_screen Real.pi 0 0 = .ok none := by
  constructor
  · exact wireframe_nameerror_amended.1 0 0 0 (by rw [Real.cos_zero]; norm_num)
  · exact wireframe_nameerror_amended.2.1 Real.pi 0 0 (by rw [Real.cos_pi]; norm_num)

theorem complex_abs_mk (nx ny : ℝ) :
    Complex.abs ⟨nx, ny⟩ = Real.sqrt (nx ^ 2 + ny ^ 2) := by
  rw [Complex.abs_apply, Complex.normSq_mk]
  congr 1
  ring

theorem atan2_mem_Ioc (y x : ℝ) : atan2 y x ∈ Set.Ioc (-Real.pi) Real.pi :=
  Complex.arg_mem_Ioc _

theorem cos_atan2 (ny nx : ℝ) (h : ¬ (nx = 0 ∧ ny = 0)) :
    Real.cos (atan2 ny nx) = nx / Real.sqrt (nx ^ 2 + ny ^ 2) := by
  unfold atan2
  have hz : (⟨nx, ny⟩ : ℂ) ≠ 0 := by
    intro habs
    rw [Complex.ext_iff] at habs
    exact h ⟨habs.1, habs.2⟩
  rw [Complex.cos_arg hz, complex_abs_mk]

theorem sin_atan2 (ny nx : ℝ) :
    Real.sin (atan2 ny nx) = ny / Real.sqrt (nx ^ 2 + ny ^ 2) := by
  unfold atan2
  rw [Complex.sin_arg, complex_abs_mk]

theorem atan2_scale {c : ℝ} (hc : 0 < c) {a : ℝ} (ha : a ∈ Set.Ioc (-Real.pi) Real.pi) :
    atan2 (c * Real.sin a) (c * Real.cos a) = a := by
  unfold atan2
  have hmk : (⟨c * Real.cos a, c * Real.sin a⟩ : ℂ) =
      (c : ℂ) * (Complex.cos (a : ℂ) + Complex.sin (a : ℂ) * Complex.I) := by
    apply Complex.ext
    · simp [Complex.mul_re, Complex.cos_ofReal_re, Complex.sin_ofReal_re]
    · simp [Complex.mul_im, Complex.cos_ofReal_re, Complex.sin_ofReal_re]
  rw [hmk, Complex.arg_real_mul _ hc, Complex.arg_cos_add_sin_mul_I ha]

theorem aep_polar_eval (nx ny : ℝ) (h : Real.sqrt (nx ^ 2 + ny ^ 2) < 0.9) :
    projection_utils.azimuthal_equidistant_projection
      (Real.cos (Real.sqrt (nx ^ 2 + ny ^ 2) * (Real.pi / 2) / 0.9))
      (Real.sin (Real.sqrt (nx ^ 2 + ny ^ 2) * (Real.pi / 2) / 0.9) *
        Real.cos (atan2 ny nx))
      (Real.sin (Real.sqrt (nx ^ 2 + ny ^ 2) * (Real.pi / 2) / 0.9) *
        Real.sin (atan2 ny nx)) =
    if 0 ≤ pytrunc (320 + 300 * nx) ∧ pytrunc (320 + 300 * nx) < 640 ∧
        0 ≤ pytrunc (240 - 4000 / 13 * ny) ∧ pytrunc (240 - 4000 / 13 * ny) < 480 then
      some (pytrunc (320 + 300 * nx), pytrunc (240 - 4000 / 13 * ny))
    else none := by
  have hpi := Real.pi_pos
  set r := Real.sqrt (nx ^ 2 + ny ^ 2) with hrdef
  have hr0 : 0 ≤ r := Real.sqrt_nonneg _
  set T := r * (Real.pi / 2) / 0.9 with hTdef
  have hT0 : 0 ≤ T := div_nonneg (mul_nonneg hr0 (by positivity)) (by norm_num)
  have hkey : T * 0.9 = r * (Real.pi / 2) := by
    rw [hTdef]
    field_simp
    ring
  have hTlt : T < Real.pi / 2 := by
    nlinarith [mul_pos (sub_pos.mpr h) (half_pos hpi)]
  have hcosT : 0 < Real.cos T := Real.cos_pos_of_mem_Ioo ⟨by linarith, hTlt⟩
  have hgca : projection_utils.great_circle_angle (Real.cos T) = T := by
    unfold projection_utils.great_circle_angle
    rw [min_eq_right (Real.cos_le_one T), max_eq_right (Real.neg_one_le_cos T),
      Real.arccos_cos hT0 (by linarith)]
  have hoffx : projection_utils.off_x (Real.cos T)
      (Real.sin T * Real.cos (atan2 ny nx)) (Real.sin T * Real.sin (atan2 ny nx)) =
      300 * nx ∧ projection_utils.off_y (Real.cos T)
      (Real.sin T * Real.cos (atan2 ny nx)) (Real.sin T * Real.sin (atan2 ny nx)) =
      4000 / 13 * ny := by
    rcases eq_or_lt_of_le hr0 with hr00 | hrpos
    · have hz : Real.sqrt (nx ^ 2 + ny ^ 2) = 0 := by rw [← hrdef, ← hr00]
      have hsq : nx ^ 2 + ny ^ 2 = 0 := (Real.sqrt_eq_zero (by positivity)).mp hz
      have hnx : nx = 0 := by nlinarith [sq_nonneg nx, sq_nonneg ny]
      have hny : ny = 0 := by nlinarith [sq_nonneg nx, sq_nonneg ny]
      have hTz : T = 0 := by
        rw [hTdef, ← hr00]
        ring
      constructor <;>
        · simp only [projection_utils.off_x, projection_utils.off_y, hgca]
          rw [hTz]
          simp [hnx, hny]
    · have hTpos : 0 < T := div_pos (mul_pos hrpos (half_pos hpi)) (by norm_num)
      have hsinT : 0 < Real.sin T :=
        Real.sin_pos_of_pos_of_lt_pi hTpos (by linarith)
      have haz : atan2 (Real.sin T * Real.sin (atan2 ny nx))
          (Real.sin T * Real.cos (atan2 ny nx)) = atan2 ny nx :=
        atan2_scale hsinT (atan2_mem_Ioc ny nx)
      have hne : ¬ (nx = 0 ∧ ny = 0) := by
        rintro ⟨h1, h2⟩
        rw [h1, h2] at hrdef
        rw [hrdef] at hrpos
        norm_num at hrpos
      have hcos : Real.cos (atan2 ny nx) = nx / r := by
        rw [cos_atan2 ny nx hne, ← hrdef]
      have hsin : Real.sin (atan2 ny nx) = ny / r := by
        rw [sin_atan2 ny nx, ← hrdef]
      have hmin : min projection_utils.W projection_utils.H = 480 := by
        norm_num [projection_utils.W, projection_utils.H]
      constructor <;>
        · simp only [projection_utils.off_x, projection_utils.off_y]
          rw [hgca, haz]
          simp only [hcos, hsin, projection_utils.max_screen_radius, hmin,
            projection_utils.SCALE_X, projection_utils.SCALE_Y]
          rw [hTdef]
          field_simp
          ring
  unfold projection_utils.azimuthal_equidistant_projection
  rw [if_neg (not_le.mpr hcosT), hgca, if_neg (not_lt.mpr hTlt.le), hoffx.1, hoffx.2]
  norm_num [projection_utils.W, projection_utils.H]

theorem grid_cex_norm_x : eyeball_core.norm_x 640 420 = 5 / 16 := by
  norm_num [eyeball_core.norm_x]

theorem grid_cex_norm_y : eyeball_core.norm_y 480 240 = 0 := by
  norm_num [eyeball_core.norm_y]

theorem grid_cex_sqrt : Real.sqrt ((5 / 16 : ℝ) ^ 2 + 0 ^ 2) = 5 / 16 := by
  rw [show ((5 / 16 : ℝ) ^ 2 + 0 ^ 2) = (5 / 16) ^ 2 by norm_num]
  exact Real.sqrt_sq (by norm_num)

theorem grid_cex_radius : eyeball_core.radius 480 640 240 420 = 5 / 16 := by
  simp only [eyeball_core.radius, grid_cex_norm_x, grid_cex_norm_y]
  exact grid_cex_sqrt

/-- Counterexample for C1: pixel (i, j) = (240, 420) of the 480x640 grid lies
inside the valid hemisphere mask and rescales to the screen point (420, 240),
but projecting the direction formed from the grid great_circle_angle and
azimuth returns (413, 240): the inverse grid mapping ignores the SCALE
factors and the y flip of the forward projection. -/
theorem aep_grid_roundtrip_counterexample :
    eyeball_core.valid_mask 480 640 240 420 ∧
    projection_utils.azimuthal_equidistant_projection
      (Real.cos (eyeball_core.great_circle_angle 480 640 240 420))
      (Real.sin (eyeball_core.great_circle_angle 480 640 240 420) *
        Real.cos (eyeball_core.azimuth 480 640 240 420))
      (Real.sin (eyeball_core.great_circle_angle 480 640 240 420) *
        Real.sin (eyeball_core.azimuth 480 640 240 420)) = some (413, 240) ∧
    pytrunc ((420 : ℝ) * 640 / 640) = 420 ∧ pytrunc ((240 : ℝ) * 480 / 480) = 240 ∧
    some ((413 : ℤ), (240 : ℤ)) ≠ some ((420 : ℤ), (240 : ℤ)) := by
  refine ⟨⟨?_, ?_⟩, ?_, ?_, ?_, ?_⟩
  · rw [grid_cex_radius]
    norm_num
  · simp only [eyeball_core.great_circle_angle, grid_cex_radius]
    have hrw : (5 / 16 : ℝ) * (Real.pi / 2) / 0.9 = Real.pi * (25 / 144) := by ring
    rw [hrw]
    nlinarith [Real.pi_pos]
  · have hg : eyeball_core.great_circle_angle 480 640 240 420 =
        Real.sqrt ((5 / 16 : ℝ) ^ 2 + 0 ^ 2) * (Real.pi / 2) / 0.9 := by
      simp only [eyeball_core.great_circle_angle, eyeball_core.radius,
        grid_cex_norm_x, grid_cex_norm_y]
    have ha : eyeball_core.azimuth 480 640 240 420 = atan2 0 (5 / 16) := by
      simp only [eyeball_core.azimuth, grid_cex_norm_x, grid_cex_norm_y]
    rw [hg, ha, aep_polar_eval (5 / 16) 0 (by rw [grid_cex_sqrt]; norm_num)]
    rw [show (320 : ℝ) + 300 * (5 / 16) = 413.75 by norm_num]
    rw [show (240 : ℝ) - 4000 / 13 * 0 = 240 by norm_num]
    rw [pytrunc_eq_of (by norm_num : (0 : ℝ) ≤ 413.75)
      (by norm_num : ((413 : ℤ) : ℝ) ≤ 413.75)
      (by norm_num : (413.75 : ℝ) < (413 : ℤ) + 1)]
    rw [pytrunc_eq_of (by norm_num : (0 : ℝ) ≤ 240)
      (by norm_num : ((240 : ℤ) : ℝ) ≤ 240)
      (by norm_num : (240 : ℝ) < (240 : ℤ) + 1)]
    rw [if_pos (by norm_num)]
  · exact pytrunc_eq_of (by norm_num) (by norm_num) (by norm_num)
  · exact pytrunc_eq_of (by norm_num) (by norm_num) (by norm_num)
  · decide

/-- Claim C1 (amended): for a grid pixel strictly inside the hemisphere mask,
projecting the direction formed from the grid (great_circle_angle, azimuth)
returns the screen point whose offsets from the centre (320, 240) are
300 * norm_x and -(4000/13) * norm_y, truncated (when in bounds, else None):
the horizontal factor is 300 rather than the 320 of the original pixel, the
vertical factor is 4000/13 with mirrored sign rather than +240, so the
round trip does not return the rescaled pixel; pixels exactly on the mask
boundary (radius = 0.9) project to None. -/
theorem aep_grid_roundtrip_amended :
    (∀ Hres Wres i j : ℕ, eyeball_core.radius Hres Wres i j < 0.9 →
      projection_utils.azimuthal_equidistant_projection
        (Real.cos (eyeball_core.great_circle_angle Hres Wres i j))
        (Real.sin (eyeball_core.great_circle_angle Hres Wres i j) *
          Real.cos (eyeball_core.azimuth Hres Wres i j))
        (Real.sin (eyeball_core.great_circle_angle Hres Wres i j) *
          Real.sin (eyeball_core.azimuth Hres Wres i j)) =
      if 0 ≤ pytrunc (320 + 300 * eyeball_core.norm_x Wres j) ∧
          pytrunc (320 + 300 * eyeball_core.norm_x Wres j) < 640 ∧
          0 ≤ pytrunc (240 - 4000 / 13 * eyeball_core.norm_y Hres i) ∧
          pytrunc (240 - 4000 / 13 * eyeball_core.norm_y Hres i) < 480 then
        some (pytrunc (320 + 300 * eyeball_core.norm_x Wres j),
          pytrunc (240 - 4000 / 13 * eyeball_core.norm_y Hres i))
      else none) ∧
    (∀ Hres Wres i j : ℕ, eyeball_core.radius Hres Wres i j = 0.9 →
      projection_utils.azimuthal_equidistant_projection
        (Real.cos (eyeball_core.great_circle_angle Hres Wres i j))
        (Real.sin (eyeball_core.great_circle_angle Hres Wres i j) *
          Real.cos (eyeball_core.azimuth Hres Wres i j))
        (Real.sin (eyeball_core.great_circle_angle Hres Wres i j) *
          Real.sin (eyeball_core.azimuth Hres Wres i j)) = none) := by
  constructor
  · intro Hres Wres i j h
    have hg : eyeball_core.great_circle_angle Hres Wres i j =
        Real.sqrt (eyeball_core.norm_x Wres j ^ 2 + eyeball_core.norm_y Hres i ^ 2) *
          (Real.pi / 2) / 0.9 := by
      simp only [eyeball_core.great_circle_angle, eyeball_core.radius]
    have ha : eyeball_core.azimuth Hres Wres i j =
        atan2 (eyeball_core.norm_y Hres i) (eyeball_core.norm_x Wres j) := by
      simp only [eyeball_core.azimuth]
    simp only [eyeball_core.radius] at h
    rw [hg, ha]
    exact aep_polar_eval (eyeball_core.norm_x Wres j) (eyeball_core.norm_y Hres i) h
  · intro Hres Wres i j h
    have hg : eyeball_core.great_circle_angle Hres Wres i j = Real.pi / 2 := by
      simp only [eyeball_core.great_circle_angle, h]
      ring
    rw [hg, Real.cos_pi_div_two]
    unfold projection_utils.azimuthal_equidistant_projection
    rw [if_pos (le_refl (0 : ℝ))]

/-- Witness for C1 (amended) at pixel (240, 420) of the 480x640 grid. -/
theorem aep_grid_roundtrip_amended_witness :
    eyeball_core.radius 480 640 240 420 < 0.9 ∧
    projection_utils.azimuthal_equidistant_projection
      (Real.cos (eyeball_core.great_circle_angle 480 640 240 420))
      (Real.sin (eyeball_core.great_circle_angle 480 640 240 420) *
        Real.cos (eyeball_core.azimuth 480 640 240 420))
      (Real.sin (eyeball_core.great_circle_angle 480 640 240 420) *
        Real.sin (eyeball_core.azimuth 480 640 240 420)) =
    (if 0 ≤ pytrunc (320 + 300 * eyeball_core.norm_x 640 420) ∧
        pytrunc (320 + 300 * eyeball_core.norm_x 640 420) < 640 ∧
        0 ≤ pytrunc (240 - 4000 / 13 * eyeball_core.norm_y 480 240) ∧
        pytrunc (240 - 4000 / 13 * eyeball_core.norm_y 480 240) < 480 then
      some (pytrunc (320 + 300 * eyeball_core.norm_x 640 420),
        pytrunc (240 - 4000 / 13 * eyeball_core.norm_y 480 240))
    else none) := by
  have hrad : eyeball_core.radius 480 640 240 420 < 0.9 := by
    rw [grid_cex_radius]
    norm_num
  exact ⟨hrad, aep_grid_roundtrip_amended.1 480 640 240 420 hrad⟩
